import Mathlib

/-!
Verification of the `cache-rs` expiring-value cache (`src/cache.rs`).

The Rust code is embedded shallowly:

* `SystemTime` instants become `Nat` (time since epoch); every operation that
  the Rust code bases on `SystemTime::now()` takes the current instant `now`
  as an explicit argument.
* The `HashMap<String, Expiring<V>>` store becomes an association list
  `List (String × Expiring V)` with lookup / overwriting-insert / remove /
  clear / length operations mirroring the map methods the code uses.
* The `RwLock` around the map is modelled by a `poisoned : Bool` flag:
  `read()` / `write()` return `Ok` exactly when the lock is not poisoned,
  which is how the code's `if let Ok(..)` / `.map(..).unwrap_or(0)`
  patterns behave.  Sequential execution never poisons the lock, so
  operations leave the flag unchanged.
* The caller-supplied closures `load` (async, fallible) and
  `get_key_for_map` are passed as explicit function arguments:
  `load : K → Except E (Expiring V)` (the awaited outcome of the future)
  and `get_key_for_map : K → String`.
* Stateful methods return the pair (result, post-state).
-/

namespace CacheRs

set_option autoImplicit false

variable {α K V E : Type}

/-- `Expiring<T>`: a value with an absolute expiration time
(`src/cache.rs` lines 7-11). -/
structure Expiring (V : Type) where
  expires_at : Nat
  value : V
deriving DecidableEq, Repr

/-- `Expiring::new` (`src/cache.rs` lines 15-17). -/
def Expiring.new (value : V) (expires_at : Nat) : Expiring V :=
  { expires_at := expires_at, value := value }

/-- `Expiring::with_duration` (`src/cache.rs` lines 20-23):
`expires_at = now + duration`. -/
def Expiring.with_duration (value : V) (now duration : Nat) : Expiring V :=
  Expiring.new value (now + duration)

/-- `Expiring::is_expired` (`src/cache.rs` lines 26-28):
`SystemTime::now() > self.expires_at`, with `now` passed explicitly. -/
def Expiring.is_expired (e : Expiring V) (now : Nat) : Bool :=
  e.expires_at < now

/-- `HashMap::get` on the association-list model of the store. -/
def lookupKey : List (String × α) → String → Option α
  | [], _ => none
  | (k', v) :: rest, k => if k' = k then some v else lookupKey rest k

/-- `HashMap::insert` on the model: overwrite the entry for `k` when present,
otherwise add a new one. -/
def insertKey : List (String × α) → String → α → List (String × α)
  | [], k, v => [(k, v)]
  | (k', v') :: rest, k, v =>
      if k' = k then (k, v) :: rest else (k', v') :: insertKey rest k v

/-- `HashMap::remove` on the model: drop the entry for `k` when present. -/
def eraseKey : List (String × α) → String → List (String × α)
  | [], _ => []
  | (k', v') :: rest, k => if k' = k then rest else (k', v') :: eraseKey rest k

/-- The store keys are pairwise distinct — the `HashMap` representation
invariant, which every reachable cache state satisfies. -/
def NodupKeys (m : List (String × α)) : Prop :=
  (m.map Prod.fst).Nodup

instance (m : List (String × α)) : Decidable (NodupKeys m) :=
  inferInstanceAs (Decidable ((m.map Prod.fst).Nodup))

/-- `Cache<K, V, F, G>` mutable state (`src/cache.rs` lines 40-50): the
lock-guarded map, with lock poisoning made explicit.  The immutable closure
fields `load` and `get_key_for_map` are passed to each operation instead. -/
structure Cache (V : Type) where
  map : List (String × Expiring V)
  poisoned : Bool
deriving DecidableEq, Repr

/-- `Cache::new` (`src/cache.rs` lines 60-66): empty map, healthy lock. -/
def Cache.new : Cache V :=
  { map := [], poisoned := false }

/-- `Cache::get_non_expired` (`src/cache.rs` lines 116-125): under a read
lock, return a clone of the entry when present and not expired. -/
def Cache.get_non_expired (c : Cache V) (now : Nat) (identifier : String) :
    Option (Expiring V) :=
  if c.poisoned then none
  else
    match lookupKey c.map identifier with
    | some item => if item.is_expired now then none else some item
    | none => none

/-- `Cache::load_and_cache_item` (`src/cache.rs` lines 127-135): await the
loader; on error propagate it with `?` (before any lock is taken); on
success insert the item under a write lock and return it. -/
def Cache.load_and_cache_item (c : Cache V) (load : K → Except E (Expiring V))
    (key : K) (identifier : String) : Except E (Expiring V) × Cache V :=
  match load key with
  | .error e => (.error e, c)
  | .ok item =>
      (.ok item,
       if c.poisoned then c
       else { c with map := insertKey c.map identifier item })

/-- `Cache::get_with_expiry` (`src/cache.rs` lines 84-94): normalize the key,
try the non-expired fast path, otherwise load and cache. -/
def Cache.get_with_expiry (c : Cache V) (load : K → Except E (Expiring V))
    (get_key_for_map : K → String) (now : Nat) (key : K) :
    Except E (Expiring V) × Cache V :=
  let identifier := get_key_for_map key
  match c.get_non_expired now identifier with
  | some item => (.ok item, c)
  | none => c.load_and_cache_item load key identifier

/-- `Cache::get` (`src/cache.rs` lines 69-72): `get_with_expiry(key).await?`
(propagating the error), then `Ok(expiring.value)`. -/
def Cache.get (c : Cache V) (load : K → Except E (Expiring V))
    (get_key_for_map : K → String) (now : Nat) (key : K) :
    Except E V × Cache V :=
  match c.get_with_expiry load get_key_for_map now key with
  | (.ok expiring, c') => (.ok expiring.value, c')
  | (.error e, c') => (.error e, c')

/-- `Cache::delete` (`src/cache.rs` lines 97-102): remove the entry at the
normalized identifier when the write lock is healthy. -/
def Cache.delete (c : Cache V) (get_key_for_map : K → String) (key : K) :
    Cache V :=
  let identifier := get_key_for_map key
  if c.poisoned then c else { c with map := eraseKey c.map identifier }

/-- `Cache::delete_all` (`src/cache.rs` lines 105-109): clear the map when
the write lock is healthy. -/
def Cache.delete_all (c : Cache V) : Cache V :=
  if c.poisoned then c else { c with map := [] }

/-- `Cache::size` (`src/cache.rs` lines 112-114):
`map.read().map(|m| m.len()).unwrap_or(0)`. -/
def Cache.size (c : Cache V) : Nat :=
  if c.poisoned then 0 else c.map.length

/-! ### Association-list lemmas (map-method semantics) -/

theorem lookupKey_insertKey_self (m : List (String × α)) (k : String) (v : α) :
    lookupKey (insertKey m k v) k = some v := by
  induction m with
  | nil => simp [insertKey, lookupKey]
  | cons p rest ih =>
    obtain ⟨k', v'⟩ := p
    by_cases h : k' = k
    · simp [insertKey, lookupKey, h]
    · simp [insertKey, lookupKey, h, ih]

theorem lookupKey_insertKey_ne (m : List (String × α)) (k k' : String) (v : α)
    (h : k' ≠ k) : lookupKey (insertKey m k v) k' = lookupKey m k' := by
  induction m with
  | nil => simp [insertKey, lookupKey, Ne.symm h]
  | cons p rest ih =>
    obtain ⟨k₀, v₀⟩ := p
    by_cases hk : k₀ = k
    · subst hk
      simp [insertKey, lookupKey, Ne.symm h]
    · simp only [insertKey, if_neg hk, lookupKey]
      by_cases hk' : k₀ = k'
      · simp [hk']
      · simp [hk', ih]

theorem length_insertKey (m : List (String × α)) (k : String) (v : α) :
    (insertKey m k v).length =
      if (lookupKey m k).isSome then m.length else m.length + 1 := by
  induction m with
  | nil => simp [insertKey, lookupKey]
  | cons p rest ih =>
    obtain ⟨k₀, v₀⟩ := p
    by_cases hk : k₀ = k
    · simp [insertKey, lookupKey, hk]
    · simp only [insertKey, if_neg hk, lookupKey, List.length_cons, ih]
      by_cases hs : (lookupKey rest k).isSome <;> simp [hs]

theorem lookupKey_eraseKey_ne (m : List (String × α)) (k k' : String)
    (h : k' ≠ k) : lookupKey (eraseKey m k) k' = lookupKey m k' := by
  induction m with
  | nil => simp [eraseKey]
  | cons p rest ih =>
    obtain ⟨k₀, v₀⟩ := p
    by_cases hk : k₀ = k
    · subst hk
      simp [eraseKey, lookupKey, Ne.symm h]
    · simp only [eraseKey, if_neg hk, lookupKey]
      by_cases hk' : k₀ = k'
      · simp [hk']
      · simp [hk', ih]

theorem lookupKey_eq_none_of_not_mem (m : List (String × α)) (k : String)
    (h : k ∉ m.map Prod.fst) : lookupKey m k = none := by
  induction m with
  | nil => rfl
  | cons p rest ih =>
    obtain ⟨k₀, v₀⟩ := p
    simp only [List.map_cons, List.mem_cons, not_or] at h
    simp only [lookupKey, if_neg (Ne.symm h.1)]
    exact ih h.2

theorem lookupKey_eraseKey_self (m : List (String × α)) (k : String)
    (h : NodupKeys m) : lookupKey (eraseKey m k) k = none := by
  induction m with
  | nil => simp [eraseKey, lookupKey]
  | cons p rest ih =>
    obtain ⟨k₀, v₀⟩ := p
    simp only [NodupKeys, List.map_cons, List.nodup_cons] at h
    by_cases hk : k₀ = k
    · subst hk
      simp only [eraseKey, if_pos rfl]
      exact lookupKey_eq_none_of_not_mem rest k₀ h.1
    · simp only [eraseKey, if_neg hk, lookupKey, if_neg hk]
      exact ih h.2

theorem eraseKey_of_absent (m : List (String × α)) (k : String)
    (h : lookupKey m k = none) : eraseKey m k = m := by
  induction m with
  | nil => rfl
  | cons p rest ih =>
    obtain ⟨k₀, v₀⟩ := p
    simp only [lookupKey] at h
    by_cases hk : k₀ = k
    · simp [hk] at h
    · rw [if_neg hk] at h
      simp only [eraseKey, if_neg hk, ih h]

theorem length_eraseKey_present (m : List (String × α)) (k : String)
    (h : (lookupKey m k).isSome) : (eraseKey m k).length + 1 = m.length := by
  induction m with
  | nil => simp [lookupKey] at h
  | cons p rest ih =>
    obtain ⟨k₀, v₀⟩ := p
    simp only [lookupKey] at h
    by_cases hk : k₀ = k
    · simp [eraseKey, hk]
    · rw [if_neg hk] at h
      simp only [eraseKey, if_neg hk, List.length_cons, ih h]

theorem lookupKey_isSome_insertKey (m : List (String × α)) (k id : String)
    (v : α) (h : (lookupKey m id).isSome) :
    (lookupKey (insertKey m k v) id).isSome := by
  by_cases hk : id = k
  · subst hk
    simp [lookupKey_insertKey_self]
  · rwa [lookupKey_insertKey_ne m k id v hk]

theorem length_le_insertKey (m : List (String × α)) (k : String) (v : α) :
    m.length ≤ (insertKey m k v).length := by
  rw [length_insertKey]
  by_cases hs : (lookupKey m k).isSome <;> simp [hs]

/-! ### Helper lemmas about the cache operations -/

/-- A fast-path hit means the entry is in the map and not expired. -/
theorem get_non_expired_eq_some (c : Cache V) (now : Nat) (id : String)
    (it : Expiring V) (h : c.get_non_expired now id = some it) :
    c.poisoned = false ∧ lookupKey c.map id = some it ∧
      it.is_expired now = false := by
  unfold Cache.get_non_expired at h
  by_cases hp : c.poisoned
  · simp [hp] at h
  · refine ⟨by simp [hp], ?_⟩
    rw [if_neg hp] at h
    cases hl : lookupKey c.map id with
    | none => rw [hl] at h; simp at h
    | some x =>
      rw [hl] at h
      by_cases he : x.is_expired now
      · simp [he] at h
      · simp [he] at h
        subst h
        exact ⟨rfl, by simp [he]⟩

/-- A live, found entry is returned by the fast path. -/
theorem get_non_expired_of_live (c : Cache V) (now : Nat) (id : String)
    (entry : Expiring V) (hpois : c.poisoned = false)
    (hfound : lookupKey c.map id = some entry)
    (hlive : now ≤ entry.expires_at) :
    c.get_non_expired now id = some entry := by
  simp [Cache.get_non_expired, hpois, hfound, Expiring.is_expired,
    Nat.not_lt.mpr hlive]

/-- `get` has the same post-state as `get_with_expiry`. -/
theorem get_snd_eq (c : Cache V) (load : K → Except E (Expiring V))
    (get_key_for_map : K → String) (now : Nat) (key : K) :
    (c.get load get_key_for_map now key).2 =
      (c.get_with_expiry load get_key_for_map now key).2 := by
  unfold Cache.get
  rcases c.get_with_expiry load get_key_for_map now key with ⟨r, c'⟩
  cases r <;> rfl

/-- The post-state of `get_with_expiry` is the pre-state or the pre-state
with one entry inserted at the normalized identifier. -/
theorem get_with_expiry_snd_cases (c : Cache V)
    (load : K → Except E (Expiring V)) (get_key_for_map : K → String)
    (now : Nat) (key : K) :
    (c.get_with_expiry load get_key_for_map now key).2 = c ∨
      ∃ item, (c.get_with_expiry load get_key_for_map now key).2 =
        { c with map := insertKey c.map (get_key_for_map key) item } := by
  unfold Cache.get_with_expiry Cache.load_and_cache_item
  cases hne : c.get_non_expired now (get_key_for_map key) with
  | some it => simp [hne]
  | none =>
    cases hl : load key with
    | error e => simp [hne, hl]
    | ok item =>
      by_cases hp : c.poisoned
      · simp [hne, hl, hp]
      · simp only [hne, hl, if_neg hp]
        exact Or.inr ⟨item, rfl⟩

/-! ### Claim theorems -/

/-- C1: when the store holds an entry at the normalized identifier with
`now ≤ expires_at` (the boundary instant counts as live), both `get` and
`get_with_expiry` return that stored entry's value and leave the store
unchanged — for every loader, hence without invoking the loader. -/
theorem cache_hit_returns_stored_value (c : Cache V)
    (load : K → Except E (Expiring V)) (get_key_for_map : K → String)
    (now : Nat) (k : K) (entry : Expiring V)
    (hpois : c.poisoned = false)
    (hfound : lookupKey c.map (get_key_for_map k) = some entry)
    (hlive : now ≤ entry.expires_at) :
    c.get_with_expiry load get_key_for_map now k = (.ok entry, c) ∧
    c.get load get_key_for_map now k = (.ok entry.value, c) := by
  have hne : c.get_non_expired now (get_key_for_map k) = some entry :=
    get_non_expired_of_live c now (get_key_for_map k) entry hpois hfound hlive
  have h1 : c.get_with_expiry load get_key_for_map now k = (.ok entry, c) := by
    unfold Cache.get_with_expiry
    simp [hne]
  exact ⟨h1, by unfold Cache.get; rw [h1]⟩

/-- Witness for C1: a store holding `("id", ⟨10, 7⟩)` at `now = 10`
(the expiry boundary) serves the hit even under an always-failing loader. -/
theorem cache_hit_returns_stored_value_witness :
    Cache.get_with_expiry (V := Nat) ⟨[("id", ⟨10, 7⟩)], false⟩
        (fun _ : Nat => (Except.error "boom" : Except String (Expiring Nat)))
        (fun _ : Nat => "id") 10 1 =
      (Except.ok ⟨10, 7⟩, ⟨[("id", ⟨10, 7⟩)], false⟩) ∧
    Cache.get (V := Nat) ⟨[("id", ⟨10, 7⟩)], false⟩
        (fun _ : Nat => (Except.error "boom" : Except String (Expiring Nat)))
        (fun _ : Nat => "id") 10 1 =
      (Except.ok 7, ⟨[("id", ⟨10, 7⟩)], false⟩) :=
  cache_hit_returns_stored_value ⟨[("id", ⟨10, 7⟩)], false⟩ _ _ 10 1
    ⟨10, 7⟩ rfl (by decide) (by decide)

/-- C2: when the loader fails, the store is left completely unchanged —
the post-state equals the pre-state and every identifier maps to exactly
what it mapped to before (no insertion, removal, overwrite, negative
caching, or eviction of a stale entry), through `get` and
`get_with_expiry` alike — and when the loader was actually invoked (the
fast path missed), that exact error is returned to the caller. -/
theorem loader_error_propagates_store_untouched (c : Cache V)
    (load : K → Except E (Expiring V)) (get_key_for_map : K → String)
    (now : Nat) (k : K) (e : E)
    (herr : load k = .error e) :
    (c.get_with_expiry load get_key_for_map now k).2 = c ∧
    (c.get load get_key_for_map now k).2 = c ∧
    (∀ id, lookupKey (c.get_with_expiry load get_key_for_map now k).2.map id
      = lookupKey c.map id) ∧
    (c.get_non_expired now (get_key_for_map k) = none →
      c.get_with_expiry load get_key_for_map now k = (.error e, c) ∧
      c.get load get_key_for_map now k = (.error e, c)) := by
  cases hne : c.get_non_expired now (get_key_for_map k) with
  | some it =>
    have h1 : c.get_with_expiry load get_key_for_map now k = (.ok it, c) := by
      unfold Cache.get_with_expiry
      simp [hne]
    have h2 : (c.get load get_key_for_map now k).2 = c := by
      rw [get_snd_eq c load get_key_for_map now k, h1]
    refine ⟨by rw [h1], h2, fun id => by rw [h1], fun hmiss => ?_⟩
    exact absurd hmiss (by simp)
  | none =>
    have h1 : c.get_with_expiry load get_key_for_map now k = (.error e, c) := by
      unfold Cache.get_with_expiry Cache.load_and_cache_item
      simp [hne, herr]
    have h2 : c.get load get_key_for_map now k = (.error e, c) := by
      unfold Cache.get
      rw [h1]
    exact ⟨by rw [h1], by rw [h2], fun id => by rw [h1], fun _ => ⟨h1, h2⟩⟩

/-- Witness for C2: a store holding a live entry at `"keep"`, queried for a
key normalizing to the absent `"id"` with a failing loader, returns the
error, keeps `"keep"` intact, and is unchanged. -/
theorem loader_error_propagates_store_untouched_witness :
    (Cache.get_with_expiry (V := Nat) ⟨[("keep", ⟨9, 3⟩)], false⟩
        (fun _ : Nat => (Except.error "boom" : Except String (Expiring Nat)))
        (fun _ : Nat => "id") 0 1).2 = ⟨[("keep", ⟨9, 3⟩)], false⟩ ∧
    lookupKey (Cache.get_with_expiry (V := Nat) ⟨[("keep", ⟨9, 3⟩)], false⟩
        (fun _ : Nat => (Except.error "boom" : Except String (Expiring Nat)))
        (fun _ : Nat => "id") 0 1).2.map "keep"
      = lookupKey [("keep", ⟨9, 3⟩)] "keep" ∧
    Cache.get_with_expiry (V := Nat) ⟨[("keep", ⟨9, 3⟩)], false⟩
        (fun _ : Nat => (Except.error "boom" : Except String (Expiring Nat)))
        (fun _ : Nat => "id") 0 1 =
      (Except.error "boom", ⟨[("keep", ⟨9, 3⟩)], false⟩) ∧
    Cache.get (V := Nat) ⟨[("keep", ⟨9, 3⟩)], false⟩
        (fun _ : Nat => (Except.error "boom" : Except String (Expiring Nat)))
        (fun _ : Nat => "id") 0 1 =
      (Except.error "boom", ⟨[("keep", ⟨9, 3⟩)], false⟩) :=
  have h := loader_error_propagates_store_untouched
    ⟨[("keep", ⟨9, 3⟩)], false⟩
    (fun _ : Nat => (Except.error "boom" : Except String (Expiring Nat)))
    (fun _ : Nat => "id") 0 1 "boom" rfl
  ⟨h.1, h.2.2.1 "keep", (h.2.2.2 (by decide)).1, (h.2.2.2 (by decide)).2⟩

/-- C3: when the entry at the normalized identifier is absent or expired
(`now > expires_at`), a successful load inserts the fresh entry at that
identifier (overwriting any previous one) and returns exactly the entry
that was stored. -/
theorem miss_loads_and_stores (c : Cache V)
    (load : K → Except E (Expiring V)) (get_key_for_map : K → String)
    (now : Nat) (k : K) (item : Expiring V)
    (hpois : c.poisoned = false)
    (hmiss : lookupKey c.map (get_key_for_map k) = none ∨
      ∃ old, lookupKey c.map (get_key_for_map k) = some old ∧
        old.expires_at < now)
    (hload : load k = .ok item) :
    c.get_with_expiry load get_key_for_map now k =
      (.ok item, { c with map := insertKey c.map (get_key_for_map k) item }) ∧
    lookupKey (c.get_with_expiry load get_key_for_map now k).2.map
      (get_key_for_map k) = some item := by
  have hne : c.get_non_expired now (get_key_for_map k) = none := by
    rcases hmiss with h | ⟨old, hold, hexp⟩
    · simp [Cache.get_non_expired, hpois, h]
    · simp [Cache.get_non_expired, hpois, hold, Expiring.is_expired, hexp]
  have h1 : c.get_with_expiry load get_key_for_map now k =
      (.ok item, { c with map := insertKey c.map (get_key_for_map k) item }) := by
    unfold Cache.get_with_expiry Cache.load_and_cache_item
    simp [hne, hload, hpois]
  refine ⟨h1, ?_⟩
  rw [h1]
  exact lookupKey_insertKey_self c.map (get_key_for_map k) item

/-- Witness for C3: a store holding an expired entry at `"id"` is
overwritten by the fresh load, and the returned entry is the stored one. -/
theorem miss_loads_and_stores_witness :
    Cache.get_with_expiry (V := Nat) ⟨[("id", ⟨3, 7⟩)], false⟩
        (fun _ : Nat => (Except.ok ⟨20, 9⟩ : Except String (Expiring Nat)))
        (fun _ : Nat => "id") 4 1 =
      (Except.ok ⟨20, 9⟩, ⟨[("id", ⟨20, 9⟩)], false⟩) ∧
    lookupKey (Cache.get_with_expiry (V := Nat) ⟨[("id", ⟨3, 7⟩)], false⟩
        (fun _ : Nat => (Except.ok ⟨20, 9⟩ : Except String (Expiring Nat)))
        (fun _ : Nat => "id") 4 1).2.map "id" = some ⟨20, 9⟩ :=
  miss_loads_and_stores ⟨[("id", ⟨3, 7⟩)], false⟩ _ _ 4 1 ⟨20, 9⟩ rfl
    (Or.inr ⟨⟨3, 7⟩, by decide, by decide⟩) rfl

/-- C4: no `get`/`get_with_expiry` call ever removes an entry: every
identifier populated before the call is still populated after it (in
particular an expired entry stays in the store), and the entry count never
decreases. -/
theorem get_never_removes_entries (c : Cache V)
    (load : K → Except E (Expiring V)) (get_key_for_map : K → String)
    (now : Nat) (k : K) (id : String)
    (hpresent : (lookupKey c.map id).isSome) :
    (lookupKey (c.get_with_expiry load get_key_for_map now k).2.map id).isSome ∧
    (lookupKey (c.get load get_key_for_map now k).2.map id).isSome ∧
    c.map.length ≤ (c.get_with_expiry load get_key_for_map now k).2.map.length := by
  have hsnd := get_snd_eq c load get_key_for_map now k
  rcases get_with_expiry_snd_cases c load get_key_for_map now k with h | ⟨item, h⟩
  · rw [h] at hsnd ⊢
    rw [hsnd]
    exact ⟨hpresent, hpresent, Nat.le_refl _⟩
  · rw [h] at hsnd ⊢
    rw [hsnd]
    exact ⟨lookupKey_isSome_insertKey c.map (get_key_for_map k) id item hpresent,
      lookupKey_isSome_insertKey c.map (get_key_for_map k) id item hpresent,
      length_le_insertKey c.map (get_key_for_map k) item⟩

/-- Witness for C4: an expired entry at `"stale"` survives a `get` for a
different key that loads and stores fresh data. -/
theorem get_never_removes_entries_witness :
    (lookupKey (Cache.get_with_expiry (V := Nat) ⟨[("stale", ⟨0, 5⟩)], false⟩
        (fun _ : Nat => (Except.ok ⟨20, 9⟩ : Except String (Expiring Nat)))
        (fun _ : Nat => "other") 4 1).2.map "stale").isSome ∧
    (lookupKey (Cache.get (V := Nat) ⟨[("stale", ⟨0, 5⟩)], false⟩
        (fun _ : Nat => (Except.ok ⟨20, 9⟩ : Except String (Expiring Nat)))
        (fun _ : Nat => "other") 4 1).2.map "stale").isSome ∧
    (Cache.mk (V := Nat) [("stale", ⟨0, 5⟩)] false).map.length ≤
      (Cache.get_with_expiry (V := Nat) ⟨[("stale", ⟨0, 5⟩)], false⟩
        (fun _ : Nat => (Except.ok ⟨20, 9⟩ : Except String (Expiring Nat)))
        (fun _ : Nat => "other") 4 1).2.map.length :=
  get_never_removes_entries ⟨[("stale", ⟨0, 5⟩)], false⟩ _ _ 4 1 "stale"
    (by decide)

/-- C5: `get` agrees with `get_with_expiry` on the same inputs: it returns
`Ok v` exactly when `get_with_expiry` returns `Ok entry` with
`entry.value = v`, returns the same error exactly when `get_with_expiry`
does, and produces the identical post-state (no extra store access or
loader call). -/
theorem get_refines_get_with_expiry (c : Cache V)
    (load : K → Except E (Expiring V)) (get_key_for_map : K → String)
    (now : Nat) (k : K) :
    (∀ v : V, (c.get load get_key_for_map now k).1 = .ok v ↔
      ∃ entry, (c.get_with_expiry load get_key_for_map now k).1 = .ok entry ∧
        entry.value = v) ∧
    (∀ e : E, (c.get load get_key_for_map now k).1 = .error e ↔
      (c.get_with_expiry load get_key_for_map now k).1 = .error e) ∧
    (c.get load get_key_for_map now k).2 =
      (c.get_with_expiry load get_key_for_map now k).2 := by
  refine ⟨?_, ?_, get_snd_eq c load get_key_for_map now k⟩ <;>
  · intro x
    unfold Cache.get
    rcases hr : c.get_with_expiry load get_key_for_map now k with ⟨r, c'⟩
    cases r <;> simp

/-- C6: `delete` removes the entry at the normalized identifier when
present and leaves every other identifier unchanged; on an absent key the
store is exactly unchanged; `size` decreases by one exactly when an entry
was present.  (`delete` returns no error signal: its result type carries
none.) -/
theorem delete_removes_exactly_target (c : Cache V)
    (get_key_for_map : K → String) (k : K)
    (hpois : c.poisoned = false) (hnd : NodupKeys c.map) :
    lookupKey (c.delete get_key_for_map k).map (get_key_for_map k) = none ∧
    (∀ id, id ≠ get_key_for_map k →
      lookupKey (c.delete get_key_for_map k).map id = lookupKey c.map id) ∧
    ((lookupKey c.map (get_key_for_map k)).isSome →
      (c.delete get_key_for_map k).size + 1 = c.size) ∧
    (lookupKey c.map (get_key_for_map k) = none →
      c.delete get_key_for_map k = c) := by
  have hd : c.delete get_key_for_map k =
      { c with map := eraseKey c.map (get_key_for_map k) } := by
    unfold Cache.delete
    simp [hpois]
  refine ⟨?_, ?_, ?_, ?_⟩
  · rw [hd]
    exact lookupKey_eraseKey_self c.map (get_key_for_map k) hnd
  · intro id hid
    rw [hd]
    exact lookupKey_eraseKey_ne c.map (get_key_for_map k) id hid
  · intro hsome
    rw [hd]
    simp only [Cache.size, hpois, if_neg Bool.false_ne_true]
    exact length_eraseKey_present c.map (get_key_for_map k) hsome
  · intro hnone
    rw [hd, eraseKey_of_absent c.map (get_key_for_map k) hnone]

/-- Witness for C6: deleting `"a"` from a two-entry store empties that slot,
keeps `"b"` intact, and drops `size` from 2 to 1; deleting a missing key
leaves the concrete store untouched. -/
theorem delete_removes_exactly_target_witness :
    lookupKey (Cache.delete (V := Nat) ⟨[("a", ⟨5, 1⟩), ("b", ⟨6, 2⟩)], false⟩
      (fun _ : Nat => "a") 0).map "a" = none ∧
    (∀ id, id ≠ "a" →
      lookupKey (Cache.delete (V := Nat) ⟨[("a", ⟨5, 1⟩), ("b", ⟨6, 2⟩)], false⟩
        (fun _ : Nat => "a") 0).map id =
      lookupKey [("a", ⟨5, 1⟩), ("b", ⟨6, 2⟩)] id) ∧
    ((lookupKey (α := Expiring Nat) [("a", ⟨5, 1⟩), ("b", ⟨6, 2⟩)] "a").isSome →
      (Cache.delete (V := Nat) ⟨[("a", ⟨5, 1⟩), ("b", ⟨6, 2⟩)], false⟩
        (fun _ : Nat => "a") 0).size + 1 =
      (Cache.mk (V := Nat) [("a", ⟨5, 1⟩), ("b", ⟨6, 2⟩)] false).size) ∧
    (lookupKey (α := Expiring Nat) [("a", ⟨5, 1⟩), ("b", ⟨6, 2⟩)] "a" = none →
      Cache.delete (V := Nat) ⟨[("a", ⟨5, 1⟩), ("b", ⟨6, 2⟩)], false⟩
        (fun _ : Nat => "a") 0 = ⟨[("a", ⟨5, 1⟩), ("b", ⟨6, 2⟩)], false⟩) :=
  delete_removes_exactly_target ⟨[("a", ⟨5, 1⟩), ("b", ⟨6, 2⟩)], false⟩
    (fun _ : Nat => "a") 0 rfl (by decide)

/-- C7: after `delete_all` the store holds no entries and `size` is 0. -/
theorem delete_all_clears (c : Cache V) (hpois : c.poisoned = false) :
    (c.delete_all).map = [] ∧ (c.delete_all).size = 0 := by
  unfold Cache.delete_all Cache.size
  simp [hpois]

/-- Witness for C7: clearing a two-entry store leaves it empty. -/
theorem delete_all_clears_witness :
    (Cache.delete_all (V := Nat) ⟨[("a", ⟨5, 1⟩), ("b", ⟨6, 2⟩)], false⟩).map
        = [] ∧
    (Cache.delete_all (V := Nat) ⟨[("a", ⟨5, 1⟩), ("b", ⟨6, 2⟩)], false⟩).size
        = 0 :=
  delete_all_clears ⟨[("a", ⟨5, 1⟩), ("b", ⟨6, 2⟩)], false⟩ rfl

/-- C9: after a successful sequential `get_with_expiry` the store holds an
entry at the normalized identifier, and `size` grew by exactly one when no
entry existed there beforehand and is unchanged when one did. -/
theorem successful_get_leaves_entry_present (c : Cache V)
    (load : K → Except E (Expiring V)) (get_key_for_map : K → String)
    (now : Nat) (k : K) (entry : Expiring V)
    (hpois : c.poisoned = false)
    (hok : (c.get_with_expiry load get_key_for_map now k).1 = .ok entry) :
    (lookupKey (c.get_with_expiry load get_key_for_map now k).2.map
      (get_key_for_map k)).isSome ∧
    ((lookupKey c.map (get_key_for_map k)).isSome →
      (c.get_with_expiry load get_key_for_map now k).2.size = c.size) ∧
    (lookupKey c.map (get_key_for_map k) = none →
      (c.get_with_expiry load get_key_for_map now k).2.size = c.size + 1) := by
  cases hne : c.get_non_expired now (get_key_for_map k) with
  | some it =>
    have hstate : c.get_with_expiry load get_key_for_map now k = (.ok it, c) := by
      unfold Cache.get_with_expiry
      simp [hne]
    obtain ⟨-, hlk, -⟩ := get_non_expired_eq_some c now (get_key_for_map k) it hne
    rw [hstate]
    refine ⟨by simp [hlk], fun _ => rfl, fun hnone => ?_⟩
    rw [hnone] at hlk
    cases hlk
  | none =>
    cases hl : load k with
    | error e =>
      have hbad : (c.get_with_expiry load get_key_for_map now k).1 = .error e := by
        unfold Cache.get_with_expiry Cache.load_and_cache_item
        simp [hne, hl]
      rw [hbad] at hok
      cases hok
    | ok item =>
      have hstate : c.get_with_expiry load get_key_for_map now k =
          (.ok item, { c with map := insertKey c.map (get_key_for_map k) item }) := by
        unfold Cache.get_with_expiry Cache.load_and_cache_item
        simp [hne, hl, hpois]
      rw [hstate]
      refine ⟨by simp [lookupKey_insertKey_self], ?_, ?_⟩
      · intro hsome
        simp [Cache.size, hpois, length_insertKey, hsome]
      · intro hnone
        simp [Cache.size, hpois, length_insertKey, hnone]

/-- Witness for C9: a miss on an empty store inserts the loaded entry and
grows `size` from 0 to 1. -/
theorem successful_get_leaves_entry_present_witness :
    (lookupKey (Cache.get_with_expiry (V := Nat) ⟨[], false⟩
        (fun _ : Nat => (Except.ok ⟨5, 42⟩ : Except String (Expiring Nat)))
        (fun _ : Nat => "id") 0 1).2.map "id").isSome ∧
    ((lookupKey (α := Expiring Nat) [] "id").isSome →
      (Cache.get_with_expiry (V := Nat) ⟨[], false⟩
        (fun _ : Nat => (Except.ok ⟨5, 42⟩ : Except String (Expiring Nat)))
        (fun _ : Nat => "id") 0 1).2.size =
      (Cache.mk (V := Nat) [] false).size) ∧
    (lookupKey (α := Expiring Nat) [] "id" = none →
      (Cache.get_with_expiry (V := Nat) ⟨[], false⟩
        (fun _ : Nat => (Except.ok ⟨5, 42⟩ : Except String (Expiring Nat)))
        (fun _ : Nat => "id") 0 1).2.size =
      (Cache.mk (V := Nat) [] false).size + 1) :=
  successful_get_leaves_entry_present ⟨[], false⟩ _ _ 0 1 ⟨5, 42⟩ rfl rfl

/-- C10: `size`, `delete` and `delete_all` are total and signal no error
even when the store lock is poisoned: `size` returns 0 and
`delete`/`delete_all` return normally with the store unchanged. -/
theorem admin_ops_total_under_poison (c : Cache V)
    (get_key_for_map : K → String) (k : K) (hpois : c.poisoned = true) :
    c.size = 0 ∧ c.delete get_key_for_map k = c ∧ c.delete_all = c := by
  unfold Cache.size Cache.delete Cache.delete_all
  simp [hpois]

/-- Witness for C10: a poisoned one-entry cache reports size 0 and both
delete operations leave it untouched. -/
theorem admin_ops_total_under_poison_witness :
    (Cache.mk (V := Nat) [("a", ⟨5, 1⟩)] true).size = 0 ∧
    Cache.delete (V := Nat) ⟨[("a", ⟨5, 1⟩)], true⟩ (fun _ : Nat => "a") 0
        = ⟨[("a", ⟨5, 1⟩)], true⟩ ∧
    Cache.delete_all (V := Nat) ⟨[("a", ⟨5, 1⟩)], true⟩
        = ⟨[("a", ⟨5, 1⟩)], true⟩ :=
  admin_ops_total_under_poison ⟨[("a", ⟨5, 1⟩)], true⟩ (fun _ : Nat => "a")
    0 rfl

end CacheRs
